import Mathlib

/-!
Shallow embedding of `process_boosters.py` (MTG booster image processor).

The script enumerates files in a boosters directory, keeps those whose
lowercased name ends in `.png` / `.jpg` / `.jpeg`, and for each one:
opens and converts it to RGBA, autocrops to the bounding box of the
pixels with nonzero alpha (`Image.getbbox`), guards against a zero
height, computes `new_width = max 1 (int (width * (300 / height)))` and
`new_height = max 1 300`, resizes, and saves over the original file.
Any exception in the per-file body is caught and reported, and the loop
continues with the next file.
-/

namespace ProcessBoosters

/-- One RGBA pixel; channel values are natural numbers (0..255 in practice). -/
structure RGBA where
  r : ℕ
  g : ℕ
  b : ℕ
  a : ℕ
deriving DecidableEq

/-- A decoded pixel buffer in RGBA mode: a list of rows, each row a list of pixels. -/
abbrev Img := List (List RGBA)

/-- The module-level constant `TARGET_HEIGHT = 300`. -/
def TARGET_HEIGHT : ℕ := 300

/-- Height of a buffer: the number of rows. -/
def imgHeight (img : Img) : ℕ := img.length

/-- Width of a buffer: the length of its first row (0 for an empty buffer). -/
def imgWidth (img : Img) : ℕ :=
  match img with
  | [] => 0
  | row :: _ => row.length

/-- A buffer is rectangular when every row has the common width. -/
def Rect (img : Img) : Prop := ∀ row ∈ img, row.length = imgWidth img

instance (img : Img) : Decidable (Rect img) := by
  unfold Rect
  infer_instance

/-- The pixel at column `x` of row `y`, if both indices are in range. -/
def pixelAt (img : Img) (x y : ℕ) : Option RGBA :=
  match img[y]? with
  | none => none
  | some row => row[x]?

/-- The alpha value at `(x, y)`, reading 0 outside the buffer. -/
def alphaAt (img : Img) (x y : ℕ) : ℕ :=
  match pixelAt img x y with
  | none => 0
  | some p => p.a

/-- Columns (within the nominal width) holding at least one pixel with alpha > 0. -/
def alphaCols (img : Img) : List ℕ :=
  (List.range (imgWidth img)).filter fun x =>
    (List.range (imgHeight img)).any fun y => decide (0 < alphaAt img x y)

/-- Rows holding at least one pixel (within the nominal width) with alpha > 0. -/
def alphaRows (img : Img) : List ℕ :=
  (List.range (imgHeight img)).filter fun y =>
    (List.range (imgWidth img)).any fun x => decide (0 < alphaAt img x y)

/-- A Pillow-style bounding box `(left, upper, right, lower)`; `right` and
`lower` are exclusive. -/
structure BBox where
  left : ℕ
  upper : ℕ
  right : ℕ
  lower : ℕ
deriving DecidableEq

/-- `Image.getbbox()` on an RGBA image: the bounding box of the pixels with
nonzero alpha (Pillow trims by the alpha channel alone on images that have
one), or `none` when every pixel is fully transparent. -/
def getbbox (img : Img) : Option BBox :=
  match (alphaCols img).min?, (alphaCols img).max?, (alphaRows img).min?, (alphaRows img).max? with
  | some l, some xmax, some t, some ymax => some ⟨l, t, xmax + 1, ymax + 1⟩
  | _, _, _, _ => none

/-- One row of `Image.crop`: keep columns `left ≤ x < right`. -/
def cropRow (l r : ℕ) (row : List RGBA) : List RGBA :=
  (row.drop l).take (r - l)

/-- `Image.crop(bbox)`: keep rows `upper ≤ y < lower` and columns
`left ≤ x < right`. -/
def crop (img : Img) (bb : BBox) : Img :=
  ((img.drop bb.upper).take (bb.lower - bb.upper)).map (cropRow bb.left bb.right)

/-- Lines 25-29 of the source: crop to `getbbox` when it exists, otherwise
keep the buffer as is. -/
def croppedOf (img : Img) : Img :=
  match getbbox img with
  | some bb => crop img bb
  | none => img

/-- The decoded content of an image file before `convert("RGBA")`: either a
buffer that already carries an alpha channel, or a 3-channel RGB buffer
(e.g. a decoded JPEG). -/
inductive Decoded where
  | rgbImage (pix : List (List (ℕ × ℕ × ℕ)))
  | rgbaImage (pix : Img)
deriving DecidableEq

/-- `Image.convert("RGBA")`: an RGB buffer gains a fully-opaque alpha channel
(alpha 255 everywhere); a buffer that already has alpha is kept. The result
is always in RGBA mode. -/
def convertRGBA : Decoded → Img
  | .rgbImage p => p.map fun row => row.map fun c => ⟨c.1, c.2.1, c.2.2, 255⟩
  | .rgbaImage p => p

/-- Python `int()` on a rational: truncation toward zero. -/
def pyInt (q : ℚ) : ℤ :=
  if q < 0 then ⌈q⌉ else ⌊q⌋

/-- Round half to even: the integer nearest to `x`, ties going to the even
integer. -/
def roundHalfEven (x : ℚ) : ℤ :=
  if x - ⌊x⌋ < 1 / 2 then ⌊x⌋
  else if 1 / 2 < x - ⌊x⌋ then ⌊x⌋ + 1
  else if ⌊x⌋ % 2 = 0 then ⌊x⌋ else ⌊x⌋ + 1

/-- IEEE-754 binary64 rounding (round to nearest, ties to even), as the
exact rational value of the resulting double: the significand is the
53-bit nearest-even rounding of `|q| / 2 ^ (exponent - 52)`. Faithful for
values in the binary64 normal range (no overflow and no subnormals), which
covers every quantity this script computes on realistic image sizes.
CPython floats are binary64; its `int / int` true division and its float
multiplication are correctly rounded. -/
def floatRound (q : ℚ) : ℚ :=
  if q = 0 then 0
  else
    (if q < 0 then -1 else 1)
      * (roundHalfEven (|q| * (2 : ℚ) ^ ((52 : ℤ) - Int.log 2 |q|)) : ℚ)
      * (2 : ℚ) ^ (Int.log 2 |q| - 52)

/-- Line 37 of the source: `scale_factor = TARGET_HEIGHT / height`, CPython
true division of two ints: the correctly rounded binary64 value of the
exact quotient. -/
def scaleFactor (h : ℕ) : ℚ := floatRound ((TARGET_HEIGHT : ℚ) / (h : ℚ))

/-- Lines 38-43 of the source: `new_width = max(1, int(width * scale_factor))`
(the product is a binary64 multiplication of the exactly converted `width`
with `scale_factor`, and `int()` truncates toward zero) and
`new_height = max(1, TARGET_HEIGHT)`. -/
def resizeDims (w h : ℕ) : ℕ × ℕ :=
  (max 1 (pyInt (floatRound ((w : ℚ) * scaleFactor h))).toNat, max 1 TARGET_HEIGHT)

/-- An image format Pillow infers from the saved file's extension. -/
inductive Format where
  | png
  | jpeg
deriving DecidableEq

/-- A filename, as its sequence of characters. -/
abbrev FileName := List Char

/-- ASCII lowering of one character, as Python `str.lower()` acts on the
ASCII filenames at hand. -/
def lowerChar (c : Char) : Char :=
  if 65 ≤ c.toNat ∧ c.toNat ≤ 90 then Char.ofNat (c.toNat + 32) else c

/-- Python `name.lower()`. -/
def lowerName (n : FileName) : FileName := n.map lowerChar

/-- A directory entry as seen by the script: a name, whether it is a
sub-directory, and (for files) the decodable image content, `none` when the
content is not decodable as an image (or the entry is a sub-directory). -/
structure FileEntry where
  name : FileName
  isDir : Bool
  content : Option Decoded
deriving DecidableEq

/-- Line 11 of the source: `f.lower().endswith(('.png', '.jpg', '.jpeg'))`. -/
def extMatches (name : FileName) : Bool :=
  ".png".toList.isSuffixOf (lowerName name) || ".jpg".toList.isSuffixOf (lowerName name)
    || ".jpeg".toList.isSuffixOf (lowerName name)

/-- Line 11 of the source: the listing filtered by extension. The filter
looks only at the name; it does not test whether the entry is a file. -/
def selectedFiles (listing : List FileEntry) : List FileEntry :=
  listing.filter fun e => extMatches e.name

/-- The format Pillow derives from the filename extension on `save`. -/
def formatOfName (name : FileName) : Option Format :=
  if ".png".toList.isSuffixOf (lowerName name) then some .png
  else if ".jpg".toList.isSuffixOf (lowerName name) || ".jpeg".toList.isSuffixOf (lowerName name)
    then some .jpeg
  else none

/-- `Image.save(filepath)` on an RGBA-mode image. Pillow chooses the format
from the extension; PNG accepts RGBA, while the JPEG encoder rejects it and
raises `OSError: cannot write mode RGBA as JPEG`. An unknown extension
raises `ValueError: unknown file extension`. -/
def saveRGBA (fmt : Option Format) : Except String Unit :=
  match fmt with
  | some .png => .ok ()
  | some .jpeg => .error "cannot write mode RGBA as JPEG"
  | none => .error "unknown file extension"

/-- The observable outcome of the per-file body (lines 20-52): the file was
saved with the given dimensions, skipped by the zero-height guard, or failed
with an exception caught by the `except` clause. -/
inductive Outcome where
  | saved (newWidth newHeight : ℕ)
  | skippedZeroHeight
  | failed (msg : String)
deriving DecidableEq

/-- Lines 31-48 of the source: read the cropped size, guard `height == 0`,
compute the new dimensions, resize, and save. -/
def resizePhase (fmt : Option Format) (cropped : Img) : Outcome :=
  if imgHeight cropped = 0 then .skippedZeroHeight
  else
    let dims := resizeDims (imgWidth cropped) (imgHeight cropped)
    match saveRGBA fmt with
    | .ok _ => .saved dims.1 dims.2
    | .error msg => .failed msg

/-- The per-file body of the loop (lines 20-52): open the file (opening a
sub-directory or an undecodable file raises, caught by the `except` clause),
convert to RGBA, autocrop, then resize and save. -/
def processOne (e : FileEntry) : Outcome :=
  if e.isDir then .failed "Is a directory"
  else
    match e.content with
    | none => .failed "cannot identify image file"
    | some d => resizePhase (formatOfName e.name) (croppedOf (convertRGBA d))

/-- The state of a directory entry after the run: either the untouched
original entry, or a file overwritten by `save` with new dimensions. -/
inductive DiskFile where
  | original (e : FileEntry)
  | overwritten (name : FileName) (w h : ℕ)
deriving DecidableEq

/-- The per-file console line: lines 34, 49 and 52 of the source. -/
def reportLine (name : FileName) : Outcome → String
  | .saved nw nh =>
      "  Processed " ++ String.mk name ++ ": Cropped and resized to "
        ++ toString nw ++ "x" ++ toString nh
  | .skippedZeroHeight =>
      "  Skipping " ++ String.mk name ++ ": Image has zero height after cropping."
  | .failed msg =>
      "Error processing " ++ String.mk name ++ ": " ++ msg

/-- Process one entry: the disk state it leaves behind and the line printed
for it. Only a successful save overwrites the entry. -/
def stepFile (e : FileEntry) : DiskFile × String :=
  match processOne e with
  | .saved nw nh => (.overwritten e.name nw nh, reportLine e.name (.saved nw nh))
  | o => (.original e, reportLine e.name o)

/-- Line 14 of the source. -/
def noImagesLine : String := "No image files found in the boosters directory."

/-- Line 17 of the source. -/
def startLine : String := "Processing images: Autocropping and resizing to consistent height..."

/-- Line 54 of the source. -/
def completeLine : String := "\nImage processing complete."

/-- `process_booster_images()` as a function of the directory listing:
returns the resulting disk state of every entry and the console output.
When no name matches the extension filter the function reports and returns
early; otherwise every selected entry is processed in order, each failure
being caught at the per-file boundary, and the completion notice is printed
last. -/
def process_booster_images (listing : List FileEntry) : List DiskFile × List String :=
  if (selectedFiles listing).isEmpty then
    (listing.map .original, [noImagesLine])
  else
    (listing.map fun e => if extMatches e.name then (stepFile e).1 else .original e,
     startLine :: ((selectedFiles listing).map fun e => (stepFile e).2) ++ [completeLine])

/-! ### Basic facts about the embedding -/

theorem alphaAt_eq_zero_of_height_le {img : Img} {x y : ℕ} (h : imgHeight img ≤ y) :
    alphaAt img x y = 0 := by
  unfold alphaAt pixelAt
  rw [List.getElem?_eq_none h]

theorem alphaAt_eq_zero_of_width_le {img : Img} (hr : Rect img) {x y : ℕ}
    (h : imgWidth img ≤ x) : alphaAt img x y = 0 := by
  unfold alphaAt pixelAt
  cases hrow : img[y]? with
  | none => rfl
  | some row =>
    have hlen : row.length = imgWidth img := hr row (List.getElem?_mem hrow)
    simp [List.getElem?_eq_none (show row.length ≤ x by omega)]

theorem mem_alphaCols {img : Img} {x : ℕ} :
    x ∈ alphaCols img ↔ x < imgWidth img ∧ ∃ y, y < imgHeight img ∧ 0 < alphaAt img x y := by
  simp [alphaCols, List.mem_filter]

theorem mem_alphaRows {img : Img} {y : ℕ} :
    y ∈ alphaRows img ↔ y < imgHeight img ∧ ∃ x, x < imgWidth img ∧ 0 < alphaAt img x y := by
  simp [alphaRows, List.mem_filter]

theorem mem_alphaCols_of_alpha {img : Img} (hr : Rect img) {x y : ℕ}
    (hpx : 0 < alphaAt img x y) : x ∈ alphaCols img := by
  have hx : x < imgWidth img := by
    by_contra hx
    rw [alphaAt_eq_zero_of_width_le hr (le_of_not_lt hx)] at hpx
    exact absurd hpx (lt_irrefl 0)
  have hy : y < imgHeight img := by
    by_contra hy
    rw [alphaAt_eq_zero_of_height_le (le_of_not_lt hy)] at hpx
    exact absurd hpx (lt_irrefl 0)
  exact mem_alphaCols.mpr ⟨hx, y, hy, hpx⟩

theorem mem_alphaRows_of_alpha {img : Img} (hr : Rect img) {x y : ℕ}
    (hpx : 0 < alphaAt img x y) : y ∈ alphaRows img := by
  have hx : x < imgWidth img := by
    by_contra hx
    rw [alphaAt_eq_zero_of_width_le hr (le_of_not_lt hx)] at hpx
    exact absurd hpx (lt_irrefl 0)
  have hy : y < imgHeight img := by
    by_contra hy
    rw [alphaAt_eq_zero_of_height_le (le_of_not_lt hy)] at hpx
    exact absurd hpx (lt_irrefl 0)
  exact mem_alphaRows.mpr ⟨hy, x, hx, hpx⟩

theorem getbbox_eq_none_of_all_zero {img : Img} (hall : ∀ x y, alphaAt img x y = 0) :
    getbbox img = none := by
  have hc : alphaCols img = [] := by
    rw [List.eq_nil_iff_forall_not_mem]
    intro x hx
    obtain ⟨-, y, -, hpos⟩ := mem_alphaCols.mp hx
    rw [hall x y] at hpos
    exact absurd hpos (lt_irrefl 0)
  simp [getbbox, hc]

theorem pixelAt_crop (img : Img) (bb : BBox) (i j : ℕ) :
    pixelAt (crop img bb) i j =
      if i < bb.right - bb.left ∧ j < bb.lower - bb.upper then
        pixelAt img (bb.left + i) (bb.upper + j)
      else none := by
  unfold pixelAt crop cropRow
  rw [List.getElem?_map, List.getElem?_take]
  by_cases hj : j < bb.lower - bb.upper
  · rw [if_pos hj, List.getElem?_drop]
    cases hrow : img[bb.upper + j]? with
    | none => simp [hj]
    | some row =>
      simp only [Option.map_some']
      rw [List.getElem?_take]
      by_cases hi : i < bb.right - bb.left
      · rw [if_pos hi, List.getElem?_drop, if_pos ⟨hi, hj⟩]
      · rw [if_neg hi, if_neg (by tauto)]
  · rw [if_neg hj]
    simp [hj]

theorem imgHeight_crop (img : Img) (bb : BBox) :
    imgHeight (crop img bb) = min (bb.lower - bb.upper) (imgHeight img - bb.upper) := by
  simp [imgHeight, crop]

theorem imgWidth_eq_head (img : Img) : imgWidth img = (img[0]?.getD []).length := by
  cases img <;> simp [imgWidth]

theorem imgWidth_crop (img : Img) (bb : BBox) (row : List RGBA)
    (hrow : img[bb.upper]? = some row) (hpos : bb.upper < bb.lower) :
    imgWidth (crop img bb) = min (bb.right - bb.left) (row.length - bb.left) := by
  rw [imgWidth_eq_head]
  unfold crop
  rw [List.getElem?_map, List.getElem?_take, if_pos (by omega : 0 < bb.lower - bb.upper),
    List.getElem?_drop, Nat.add_zero, hrow]
  simp [cropRow]

theorem log2_eval {q : ℚ} {n : ℤ} (hq : 0 < q) (h1 : (2 : ℚ) ^ n ≤ q)
    (h2 : q < (2 : ℚ) ^ (n + 1)) : Int.log 2 q = n := by
  have ha := (Int.zpow_le_iff_le_log one_lt_two hq).mp (by exact_mod_cast h1)
  have hb := (Int.lt_zpow_iff_log_lt one_lt_two hq).mp (by exact_mod_cast h2)
  omega

theorem floatRound_pos (q : ℚ) (e m : ℤ) (hq : 0 < q)
    (h1 : (2 : ℚ) ^ e ≤ q) (h2 : q < (2 : ℚ) ^ (e + 1))
    (hm : roundHalfEven (q * (2 : ℚ) ^ ((52 : ℤ) - e)) = m) :
    floatRound q = m * (2 : ℚ) ^ (e - 52) := by
  unfold floatRound
  rw [if_neg (ne_of_gt hq), abs_of_pos hq, log2_eval hq h1 h2, hm,
    if_neg (not_lt.2 (le_of_lt hq))]
  ring

theorem roundHalfEven_eval (x : ℚ) (n : ℤ) (h1 : (n : ℚ) ≤ x) (h2 : x < n + 1)
    (hlt : x - n < 1 / 2) : roundHalfEven x = n := by
  have hf : ⌊x⌋ = n := Int.floor_eq_iff.mpr ⟨h1, h2⟩
  unfold roundHalfEven
  rw [hf, if_pos (by linarith)]

theorem floatRound_300 : floatRound 300 = 300 := by
  have h := floatRound_pos 300 8 5277655813324800 (by norm_num) (by norm_num) (by norm_num)
    (by
      rw [show (300 : ℚ) * (2 : ℚ) ^ ((52 : ℤ) - 8) = 5277655813324800 by norm_num]
      exact roundHalfEven_eval _ 5277655813324800 (by norm_num) (by norm_num) (by norm_num))
  rw [h]
  norm_num

theorem scaleFactor_one : scaleFactor 1 = 300 := by
  unfold scaleFactor
  rw [show (TARGET_HEIGHT : ℚ) / ((1 : ℕ) : ℚ) = (300 : ℚ) by norm_num [TARGET_HEIGHT]]
  exact floatRound_300

theorem pyInt_300 : pyInt 300 = 300 := by
  unfold pyInt
  rw [if_neg (by norm_num)]
  exact Int.floor_eq_iff.mpr ⟨by norm_num, by norm_num⟩

theorem resizeDims_one_one : resizeDims 1 1 = (300, 300) := by
  unfold resizeDims
  rw [scaleFactor_one, show ((1 : ℕ) : ℚ) * (300 : ℚ) = 300 by norm_num, floatRound_300,
    pyInt_300]
  decide

theorem scaleFactor_seven :
    scaleFactor 7 = 6031606643799771 / 140737488355328 := by
  unfold scaleFactor
  rw [show (TARGET_HEIGHT : ℚ) / ((7 : ℕ) : ℚ) = (300 : ℚ) / 7 by norm_num [TARGET_HEIGHT]]
  have h := floatRound_pos ((300 : ℚ) / 7) 5 6031606643799771
    (by norm_num) (by norm_num) (by norm_num)
    (by
      rw [show ((300 : ℚ) / 7) * (2 : ℚ) ^ ((52 : ℤ) - 5) = 42221246506598400 / 7 by norm_num]
      exact roundHalfEven_eval _ 6031606643799771 (by norm_num) (by norm_num) (by norm_num))
  rw [h]
  norm_num

theorem resizeDims_21_7 : resizeDims 21 7 = (899, 300) := by
  unfold resizeDims
  rw [scaleFactor_seven,
    show ((21 : ℕ) : ℚ) * ((6031606643799771 : ℚ) / 140737488355328)
      = 126663739519795191 / 140737488355328 by norm_num]
  have h := floatRound_pos ((126663739519795191 : ℚ) / 140737488355328) 9 7916483719987199
    (by norm_num) (by norm_num) (by norm_num)
    (by
      rw [show ((126663739519795191 : ℚ) / 140737488355328) * (2 : ℚ) ^ ((52 : ℤ) - 9)
          = 126663739519795191 / 16 by norm_num]
      exact roundHalfEven_eval _ 7916483719987199 (by norm_num) (by norm_num) (by norm_num))
  rw [h, show ((7916483719987199 : ℤ) : ℚ) * (2 : ℚ) ^ ((9 : ℤ) - 52)
      = 7916483719987199 / 8796093022208 by norm_num]
  rw [show pyInt ((7916483719987199 : ℚ) / 8796093022208) = 899 by
    unfold pyInt
    rw [if_neg (by norm_num)]
    exact Int.floor_eq_iff.mpr ⟨by norm_num, by norm_num⟩]
  decide

theorem stepFile_snd (e : FileEntry) : (stepFile e).2 = reportLine e.name (processOne e) := by
  unfold stepFile
  cases processOne e <;> rfl

theorem processOne_png_saved (name : FileName) (d : Decoded)
    (hfmt : formatOfName name = some .png)
    (hpos : 0 < imgHeight (croppedOf (convertRGBA d))) :
    processOne ⟨name, false, some d⟩
      = .saved (resizeDims (imgWidth (croppedOf (convertRGBA d)))
            (imgHeight (croppedOf (convertRGBA d)))).1
          (resizeDims (imgWidth (croppedOf (convertRGBA d)))
            (imgHeight (croppedOf (convertRGBA d)))).2 := by
  unfold processOne resizePhase
  simp only [Bool.false_eq_true, if_false, hfmt]
  rw [if_neg (by omega)]
  simp [saveRGBA]

/-! ### Claim theorems -/

/-- C1 counterexample: a decodable 21x7 fully visible PNG crops to a 21x7
buffer and is saved with width 899, although
`max 1 (21 * TARGET_HEIGHT / 7) = 900`: the binary64 product
`21 * (300 / 7)` is `899.9999999999999...`, one ulp short of 900, so the
truncating conversion does not agree with the exact-rational floor. -/
theorem c1_exact_floor_counterexample :
    processOne ⟨"wide.png".toList, false,
        some (.rgbaImage (List.replicate 7 (List.replicate 21 ⟨0, 0, 0, 255⟩)))⟩
      = .saved 899 TARGET_HEIGHT ∧
    max 1 (imgWidth (croppedOf (convertRGBA (.rgbaImage
          (List.replicate 7 (List.replicate 21 ⟨0, 0, 0, 255⟩)))))
        * TARGET_HEIGHT
        / imgHeight (croppedOf (convertRGBA (.rgbaImage
          (List.replicate 7 (List.replicate 21 ⟨0, 0, 0, 255⟩)))))) = 900 := by
  constructor
  · rw [processOne_png_saved _ _ (by decide) (by decide)]
    rw [show imgWidth (croppedOf (convertRGBA (.rgbaImage
        (List.replicate 7 (List.replicate 21 ⟨0, 0, 0, 255⟩))))) = 21 by decide]
    rw [show imgHeight (croppedOf (convertRGBA (.rgbaImage
        (List.replicate 7 (List.replicate 21 ⟨0, 0, 0, 255⟩))))) = 7 by decide]
    rw [resizeDims_21_7]
    rfl
  · decide

/-- C1 amended: for every file processed by `processOne` whose cropped
buffer has height `h > 0` and width `w`, a successful save reports
`newHeight = TARGET_HEIGHT` exactly and
`newWidth = max 1 (trunc (fl (w * fl (TARGET_HEIGHT / h))))`, where `fl` is
IEEE-754 binary64 rounding to nearest (ties to even): the scale is the
rounded double quotient, the product is a rounded double product, and the
conversion truncates toward zero. This agrees with the exact-rational
`max 1 (floor (w * TARGET_HEIGHT / h))` except when the double rounding
crosses an integer boundary, as it does for `w = 21, h = 7`. -/
theorem c1_saved_dims_float (e : FileEntry) (d : Decoded) (hdir : e.isDir = false)
    (hc : e.content = some d)
    (hpos : 0 < imgHeight (croppedOf (convertRGBA d))) :
    ∀ nw nh, processOne e = .saved nw nh →
      nw = max 1 (pyInt (floatRound ((imgWidth (croppedOf (convertRGBA d)) : ℚ)
            * floatRound ((TARGET_HEIGHT : ℚ)
                / (imgHeight (croppedOf (convertRGBA d)) : ℚ))))).toNat
      ∧ nh = TARGET_HEIGHT := by
  intro nw nh hsv
  unfold processOne at hsv
  rw [hdir, hc] at hsv
  simp only [Bool.false_eq_true, if_false] at hsv
  unfold resizePhase at hsv
  rw [if_neg (by omega)] at hsv
  cases hsave : saveRGBA (formatOfName e.name) with
  | ok u =>
    rw [hsave] at hsv
    simp only at hsv
    unfold resizeDims scaleFactor at hsv
    cases hsv
    refine ⟨rfl, ?_⟩
    show max 1 TARGET_HEIGHT = TARGET_HEIGHT
    decide
  | error m =>
    rw [hsave] at hsv
    simp at hsv

/-- C1 witness: a 1x2 PNG whose single pixel with positive alpha sits at
column 0 crops to 1x1 and is saved at the dimensions of the double-precision
formula. -/
theorem c1_saved_dims_float_witness :
    (300 : ℕ) = max 1 (pyInt (floatRound
        ((imgWidth (croppedOf (convertRGBA
              (.rgbaImage [[⟨0, 0, 0, 9⟩, ⟨0, 0, 0, 0⟩]]))) : ℚ)
          * floatRound ((TARGET_HEIGHT : ℚ)
              / (imgHeight (croppedOf (convertRGBA
                  (.rgbaImage [[⟨0, 0, 0, 9⟩, ⟨0, 0, 0, 0⟩]]))) : ℚ))))).toNat
      ∧ (300 : ℕ) = TARGET_HEIGHT :=
  c1_saved_dims_float
    ⟨"a.png".toList, false, some (.rgbaImage [[⟨0, 0, 0, 9⟩, ⟨0, 0, 0, 0⟩]])⟩
    (.rgbaImage [[⟨0, 0, 0, 9⟩, ⟨0, 0, 0, 0⟩]]) rfl rfl (by decide) 300 300
    (by
      rw [processOne_png_saved _ _ (by decide) (by decide)]
      rw [show imgWidth (croppedOf (convertRGBA
          (.rgbaImage [[⟨0, 0, 0, 9⟩, ⟨0, 0, 0, 0⟩]]))) = 1 by decide]
      rw [show imgHeight (croppedOf (convertRGBA
          (.rgbaImage [[⟨0, 0, 0, 9⟩, ⟨0, 0, 0, 0⟩]]))) = 1 by decide]
      rw [resizeDims_one_one])

/-- C2 (violated by the code): the buffer is indeed normalized to explicit
alpha, but a decodable opaque 1x1 `.jpg` file is not saved as JPEG: after
`convert("RGBA")` Pillow's JPEG encoder rejects the RGBA buffer and the
file fails with "cannot write mode RGBA as JPEG", leaving the original
untouched. -/
theorem c2_jpeg_never_saved :
    alphaAt (convertRGBA (.rgbImage [[(10, 20, 30)]])) 0 0 = 255 ∧
    processOne ⟨"booster.jpg".toList, false, some (.rgbImage [[(10, 20, 30)]])⟩
      = .failed "cannot write mode RGBA as JPEG" ∧
    (stepFile ⟨"booster.jpg".toList, false, some (.rgbImage [[(10, 20, 30)]])⟩).1
      = .original ⟨"booster.jpg".toList, false, some (.rgbImage [[(10, 20, 30)]])⟩ := by
  decide

/-- C5: a file whose cropped buffer has height 0 is skipped with the
zero-height report and its disk entry is left untouched. -/
theorem c5_zero_height_skip (e : FileEntry) (d : Decoded) (hdir : e.isDir = false)
    (hc : e.content = some d) (hzero : imgHeight (croppedOf (convertRGBA d)) = 0) :
    processOne e = .skippedZeroHeight ∧ (stepFile e).1 = .original e ∧
    (stepFile e).2
      = "  Skipping " ++ String.mk e.name ++ ": Image has zero height after cropping." := by
  have h1 : processOne e = .skippedZeroHeight := by
    unfold processOne
    rw [hdir, hc]
    simp only [Bool.false_eq_true, if_false]
    unfold resizePhase
    rw [if_pos hzero]
  refine ⟨h1, ?_, ?_⟩
  · unfold stepFile
    rw [h1]
  · rw [stepFile_snd, h1]
    rfl

/-- C5 witness: an empty PNG buffer has cropped height 0 and is skipped. -/
theorem c5_zero_height_skip_witness :
    processOne ⟨"z.png".toList, false, some (.rgbaImage [])⟩ = .skippedZeroHeight ∧
    (stepFile ⟨"z.png".toList, false, some (.rgbaImage [])⟩).1
      = .original ⟨"z.png".toList, false, some (.rgbaImage [])⟩ ∧
    (stepFile ⟨"z.png".toList, false, some (.rgbaImage [])⟩).2
      = "  Skipping " ++ String.mk "z.png".toList ++ ": Image has zero height after cropping." :=
  c5_zero_height_skip ⟨"z.png".toList, false, some (.rgbaImage [])⟩ (.rgbaImage [])
    rfl rfl (by decide)

/-- C6: the only durable effect of processing a file is the overwrite
performed by a successful save; any outcome other than a save leaves the
disk entry untouched, and a save overwrites exactly that entry. -/
theorem c6_save_is_only_effect (e : FileEntry) :
    ((∀ nw nh, processOne e ≠ .saved nw nh) → (stepFile e).1 = .original e) ∧
    (∀ nw nh, processOne e = .saved nw nh → (stepFile e).1 = .overwritten e.name nw nh) := by
  constructor
  · intro hns
    unfold stepFile
    cases h : processOne e with
    | saved nw nh => exact absurd h (hns nw nh)
    | skippedZeroHeight => rfl
    | failed m => rfl
  · intro nw nh h
    unfold stepFile
    rw [h]

/-- C6 witness: an undecodable PNG is left untouched; a decodable PNG is
overwritten with the computed dimensions. -/
theorem c6_save_is_only_effect_witness :
    (stepFile ⟨"broken.png".toList, false, none⟩).1
      = .original ⟨"broken.png".toList, false, none⟩ ∧
    (stepFile ⟨"ok.png".toList, false, some (.rgbaImage [[⟨0, 0, 0, 7⟩]])⟩).1
      = .overwritten "ok.png".toList 300 TARGET_HEIGHT :=
  ⟨(c6_save_is_only_effect ⟨"broken.png".toList, false, none⟩).1 (by
      intro nw nh h
      rw [show processOne (⟨"broken.png".toList, false, none⟩ : FileEntry)
          = .failed "cannot identify image file" by decide] at h
      simp at h),
   (c6_save_is_only_effect ⟨"ok.png".toList, false, some (.rgbaImage [[⟨0, 0, 0, 7⟩]])⟩).2
     300 TARGET_HEIGHT
     (by
       rw [processOne_png_saved "ok.png".toList (.rgbaImage [[⟨0, 0, 0, 7⟩]])
         (by decide) (by decide)]
       rw [show imgWidth (croppedOf (convertRGBA (.rgbaImage [[⟨0, 0, 0, 7⟩]]))) = 1 by decide]
       rw [show imgHeight (croppedOf (convertRGBA (.rgbaImage [[⟨0, 0, 0, 7⟩]]))) = 1 by decide]
       rw [resizeDims_one_one]
       rfl)⟩

/-- C8: when no name passes the extension filter, the run reports the
"no image files found" line, writes nothing, and returns. -/
theorem c8_no_images (listing : List FileEntry) (he : selectedFiles listing = []) :
    process_booster_images listing = (listing.map .original, [noImagesLine]) := by
  unfold process_booster_images
  rw [if_pos (by rw [he]; rfl)]

/-- C8 witness: a directory holding only a text file triggers the empty
report and leaves the listing untouched. -/
theorem c8_no_images_witness :
    process_booster_images [⟨"notes.txt".toList, false, none⟩]
      = ([.original ⟨"notes.txt".toList, false, none⟩], [noImagesLine]) :=
  c8_no_images [⟨"notes.txt".toList, false, none⟩] (by decide)

/-- C9 counterexample: a sub-directory named `cards.png` is selected for
processing by the extension filter, contradicting "no sub-directory is
ever selected for processing, regardless of its name". -/
theorem c9_subdir_selected :
    (⟨"cards.png".toList, true, none⟩ : FileEntry) ∈
      selectedFiles [⟨"cards.png".toList, true, none⟩] ∧
    (⟨"cards.png".toList, true, none⟩ : FileEntry).isDir = true := by
  decide

/-- C9 amended: the filter selects exactly the entries whose lowercased
name ends in `.png`/`.jpg`/`.jpeg`, by name alone; a sub-directory with a
matching name is selected too, and then fails at the open step with a
reported per-file error. -/
theorem c9_selection_by_name (listing : List FileEntry) :
    (∀ e, e ∈ selectedFiles listing ↔ e ∈ listing ∧ extMatches e.name = true) ∧
    (∀ e ∈ selectedFiles listing, e.isDir = true → processOne e = .failed "Is a directory") := by
  constructor
  · intro e
    simp [selectedFiles, List.mem_filter]
  · intro e _ hdir
    unfold processOne
    rw [hdir, if_pos rfl]

/-- C9 witness: the amended statement applied to a directory named
`booster2.png`. -/
theorem c9_selection_by_name_witness :
    processOne ⟨"booster2.png".toList, true, none⟩ = .failed "Is a directory" :=
  (c9_selection_by_name [⟨"booster2.png".toList, true, none⟩]).2
    ⟨"booster2.png".toList, true, none⟩ (by decide) rfl

/-- C10: the zero-height guard runs before the scale division, so on every
execution that passes the guard the cropped height is positive, the
rational divisor is nonzero, and the scale factor genuinely satisfies
`scale * h = TARGET_HEIGHT`. -/
theorem c10_scale_division_guarded (fmt : Option Format) (cropped : Img)
    (hne : resizePhase fmt cropped ≠ .skippedZeroHeight) :
    0 < imgHeight cropped ∧ ((imgHeight cropped : ℚ) ≠ 0) ∧
    (TARGET_HEIGHT : ℚ) / (imgHeight cropped : ℚ) * (imgHeight cropped : ℚ)
      = (TARGET_HEIGHT : ℚ) := by
  have hpos : 0 < imgHeight cropped := by
    by_contra hz
    have h0 : imgHeight cropped = 0 := by omega
    exact hne (by unfold resizePhase; rw [if_pos h0])
  have hq : ((imgHeight cropped : ℚ)) ≠ 0 := by
    exact_mod_cast Nat.pos_iff_ne_zero.mp hpos
  exact ⟨hpos, hq, div_mul_cancel₀ _ hq⟩

/-- C10 witness: a 1x1 buffer passes the guard, and the division is by a
nonzero height. -/
theorem c10_scale_division_guarded_witness :
    0 < imgHeight [[(⟨0, 0, 0, 3⟩ : RGBA)]] ∧
    ((imgHeight [[(⟨0, 0, 0, 3⟩ : RGBA)]] : ℚ) ≠ 0) ∧
    (TARGET_HEIGHT : ℚ) / (imgHeight [[(⟨0, 0, 0, 3⟩ : RGBA)]] : ℚ)
        * (imgHeight [[(⟨0, 0, 0, 3⟩ : RGBA)]] : ℚ) = (TARGET_HEIGHT : ℚ) :=
  c10_scale_division_guarded (some .png) [[⟨0, 0, 0, 3⟩]] (by decide)

/-- C4: a decoded image whose pixels are all fully transparent yields no
bounding box, is not cropped, and proceeds to resize at its full original
dimensions; for a PNG of positive height this ends in a successful save,
not an error. -/
theorem c4_fully_transparent_uncropped (img : Img) (hall : ∀ x y, alphaAt img x y = 0) :
    getbbox img = none ∧ croppedOf img = img ∧
    (∀ name, formatOfName name = some .png → 0 < imgHeight img →
      processOne ⟨name, false, some (.rgbaImage img)⟩
        = .saved (resizeDims (imgWidth img) (imgHeight img)).1
            (resizeDims (imgWidth img) (imgHeight img)).2) := by
  have hb : getbbox img = none := getbbox_eq_none_of_all_zero hall
  have hcr : croppedOf img = img := by
    unfold croppedOf
    rw [hb]
  refine ⟨hb, hcr, ?_⟩
  intro name hfmt hpos
  have hmain := processOne_png_saved name (.rgbaImage img) hfmt
    (by rw [show convertRGBA (.rgbaImage img) = img from rfl, hcr]; exact hpos)
  rw [show convertRGBA (.rgbaImage img) = img from rfl, hcr] at hmain
  exact hmain

/-- C4 witness: a 1x1 fully transparent PNG is resized to 300x300 without
cropping and without error. -/
theorem c4_fully_transparent_uncropped_witness :
    getbbox [[(⟨9, 9, 9, 0⟩ : RGBA)]] = none ∧
    croppedOf [[(⟨9, 9, 9, 0⟩ : RGBA)]] = [[(⟨9, 9, 9, 0⟩ : RGBA)]] ∧
    processOne ⟨"t.png".toList, false, some (.rgbaImage [[⟨9, 9, 9, 0⟩]])⟩ = .saved 300 300 := by
  have hall : ∀ x y, alphaAt [[(⟨9, 9, 9, 0⟩ : RGBA)]] x y = 0 := by
    intro x y
    cases y with
    | zero =>
      cases x with
      | zero => rfl
      | succ n => rfl
    | succ m => rfl
  have h := c4_fully_transparent_uncropped [[⟨9, 9, 9, 0⟩]] hall
  refine ⟨h.1, h.2.1, ?_⟩
  rw [h.2.2 "t.png".toList (by decide) (by decide)]
  rw [show imgWidth [[(⟨9, 9, 9, 0⟩ : RGBA)]] = 1 from rfl,
    show imgHeight [[(⟨9, 9, 9, 0⟩ : RGBA)]] = 1 from rfl, resizeDims_one_one]

/-- C7: whenever the extension filter selects at least one file, the run
prints the start line, then exactly one report line per selected file (in
order, each naming the file), then the completion notice; a failure on one
file never removes the lines of the others, and the completion notice is
always last. -/
theorem c7_batch_fault_isolation (listing : List FileEntry)
    (hne : selectedFiles listing ≠ []) :
    (process_booster_images listing).2
      = startLine :: ((selectedFiles listing).map fun e => reportLine e.name (processOne e))
          ++ [completeLine] ∧
    (process_booster_images listing).2.getLast? = some completeLine ∧
    ∀ e ∈ selectedFiles listing,
      reportLine e.name (processOne e) ∈ (process_booster_images listing).2 := by
  have hlog : (process_booster_images listing).2
      = startLine :: ((selectedFiles listing).map fun e => reportLine e.name (processOne e))
          ++ [completeLine] := by
    unfold process_booster_images
    rw [if_neg (by simp [List.isEmpty_iff, hne])]
    simp [stepFile_snd]
  refine ⟨hlog, ?_, ?_⟩
  · rw [hlog]
    exact List.getLast?_concat _
  · intro e he
    rw [hlog]
    exact List.mem_cons_of_mem _ (List.mem_append_left _ (List.mem_map_of_mem _ he))

/-- C7 witness: a batch with one good PNG and one undecodable JPEG still
ends with the completion notice, and the failing file's error line is in
the output. -/
theorem c7_batch_fault_isolation_witness :
    (process_booster_images
        [⟨"a.png".toList, false, some (.rgbaImage [[⟨0, 0, 0, 1⟩]])⟩,
         ⟨"bad.jpg".toList, false, none⟩]).2.getLast? = some completeLine ∧
    reportLine "bad.jpg".toList
        (processOne ⟨"bad.jpg".toList, false, none⟩)
      ∈ (process_booster_images
        [⟨"a.png".toList, false, some (.rgbaImage [[⟨0, 0, 0, 1⟩]])⟩,
         ⟨"bad.jpg".toList, false, none⟩]).2 :=
  ⟨(c7_batch_fault_isolation _ (by decide)).2.1,
   (c7_batch_fault_isolation _ (by decide)).2.2 ⟨"bad.jpg".toList, false, none⟩ (by decide)⟩

/-- C3: for an image with at least one pixel of positive alpha, `getbbox`
returns the minimal rectangle containing every such pixel (membership
decided by alpha alone): every positive-alpha pixel lies inside it, each of
its four edges touches a positive-alpha pixel, and the crop step keeps
exactly that rectangle, pixel for pixel. -/
theorem c3_bbox_minimal_crop (img : Img) (hrect : Rect img) (x0 y0 : ℕ)
    (hpx : 0 < alphaAt img x0 y0) :
    ∃ bb, getbbox img = some bb ∧
      (∀ x y, 0 < alphaAt img x y →
        bb.left ≤ x ∧ x < bb.right ∧ bb.upper ≤ y ∧ y < bb.lower) ∧
      (∃ y, 0 < alphaAt img bb.left y) ∧
      (∃ y, 0 < alphaAt img (bb.right - 1) y) ∧
      (∃ x, 0 < alphaAt img x bb.upper) ∧
      (∃ x, 0 < alphaAt img x (bb.lower - 1)) ∧
      croppedOf img = crop img bb ∧
      imgWidth (crop img bb) = bb.right - bb.left ∧
      imgHeight (crop img bb) = bb.lower - bb.upper ∧
      (∀ i j, i < bb.right - bb.left → j < bb.lower - bb.upper →
        pixelAt (crop img bb) i j = pixelAt img (bb.left + i) (bb.upper + j)) := by
  have hxc : x0 ∈ alphaCols img := mem_alphaCols_of_alpha hrect hpx
  have hyc : y0 ∈ alphaRows img := mem_alphaRows_of_alpha hrect hpx
  obtain ⟨l, hl⟩ := Option.isSome_iff_exists.mp (List.isSome_min?_of_mem hxc)
  obtain ⟨xmax, hxm⟩ := Option.isSome_iff_exists.mp (List.isSome_max?_of_mem hxc)
  obtain ⟨t, ht⟩ := Option.isSome_iff_exists.mp (List.isSome_min?_of_mem hyc)
  obtain ⟨ymax, hym⟩ := Option.isSome_iff_exists.mp (List.isSome_max?_of_mem hyc)
  obtain ⟨hlmem, hlle⟩ := List.min?_eq_some_iff'.mp hl
  obtain ⟨hxmem, hxge⟩ := List.max?_eq_some_iff'.mp hxm
  obtain ⟨htmem, htle⟩ := List.min?_eq_some_iff'.mp ht
  obtain ⟨hymem, hyge⟩ := List.max?_eq_some_iff'.mp hym
  have hbb : getbbox img = some ⟨l, t, xmax + 1, ymax + 1⟩ := by
    unfold getbbox
    rw [hl, hxm, ht, hym]
  have hxw : xmax < imgWidth img := (mem_alphaCols.mp hxmem).1
  have hyh : ymax < imgHeight img := (mem_alphaRows.mp hymem).1
  have hlx : l ≤ xmax := hlle xmax hxmem
  have hty : t ≤ ymax := htle ymax hymem
  have hth : t < imgHeight img := lt_of_le_of_lt hty hyh
  have hrow : img[t]? = some (img.get ⟨t, hth⟩) :=
    List.getElem?_eq_getElem hth
  have hrowlen : (img.get ⟨t, hth⟩).length = imgWidth img :=
    hrect _ (List.getElem_mem hth)
  refine ⟨⟨l, t, xmax + 1, ymax + 1⟩, hbb, ?_, ?_, ?_, ?_, ?_, ?_, ?_, ?_, ?_⟩
  · intro x y hp
    have hx := mem_alphaCols_of_alpha hrect hp
    have hy := mem_alphaRows_of_alpha hrect hp
    have h1 := hlle x hx
    have h2 := hxge x hx
    have h3 := htle y hy
    have h4 := hyge y hy
    refine ⟨h1, ?_, h3, ?_⟩
    · show x < xmax + 1
      omega
    · show y < ymax + 1
      omega
  · obtain ⟨-, y, -, hpos⟩ := mem_alphaCols.mp hlmem
    exact ⟨y, hpos⟩
  · obtain ⟨-, y, -, hpos⟩ := mem_alphaCols.mp hxmem
    exact ⟨y, by simpa using hpos⟩
  · obtain ⟨-, x, -, hpos⟩ := mem_alphaRows.mp htmem
    exact ⟨x, hpos⟩
  · obtain ⟨-, x, -, hpos⟩ := mem_alphaRows.mp hymem
    exact ⟨x, by simpa using hpos⟩
  · unfold croppedOf
    rw [hbb]
  · rw [imgWidth_crop img ⟨l, t, xmax + 1, ymax + 1⟩ _ hrow (by simp; omega)]
    simp only [hrowlen]
    simp
    omega
  · rw [imgHeight_crop]
    simp
    omega
  · intro i j hi hj
    rw [pixelAt_crop, if_pos ⟨hi, hj⟩]

/-- C3 witness: a 3x3 image with a single positive-alpha pixel at (1,1)
has bounding box (1,1,2,2) and crops to that single pixel. -/
theorem c3_bbox_minimal_crop_witness :
    ∃ bb, getbbox
        [[⟨0, 0, 0, 0⟩, ⟨0, 0, 0, 0⟩, ⟨0, 0, 0, 0⟩],
         [⟨0, 0, 0, 0⟩, ⟨1, 1, 1, 4⟩, ⟨0, 0, 0, 0⟩],
         [⟨0, 0, 0, 0⟩, ⟨0, 0, 0, 0⟩, ⟨0, 0, 0, 0⟩]] = some bb ∧
      croppedOf
        [[⟨0, 0, 0, 0⟩, ⟨0, 0, 0, 0⟩, ⟨0, 0, 0, 0⟩],
         [⟨0, 0, 0, 0⟩, ⟨1, 1, 1, 4⟩, ⟨0, 0, 0, 0⟩],
         [⟨0, 0, 0, 0⟩, ⟨0, 0, 0, 0⟩, ⟨0, 0, 0, 0⟩]] = crop
        [[⟨0, 0, 0, 0⟩, ⟨0, 0, 0, 0⟩, ⟨0, 0, 0, 0⟩],
         [⟨0, 0, 0, 0⟩, ⟨1, 1, 1, 4⟩, ⟨0, 0, 0, 0⟩],
         [⟨0, 0, 0, 0⟩, ⟨0, 0, 0, 0⟩, ⟨0, 0, 0, 0⟩]] bb := by
  obtain ⟨bb, h1, -, -, -, -, -, h7, -⟩ :=
    c3_bbox_minimal_crop
      [[⟨0, 0, 0, 0⟩, ⟨0, 0, 0, 0⟩, ⟨0, 0, 0, 0⟩],
       [⟨0, 0, 0, 0⟩, ⟨1, 1, 1, 4⟩, ⟨0, 0, 0, 0⟩],
       [⟨0, 0, 0, 0⟩, ⟨0, 0, 0, 0⟩, ⟨0, 0, 0, 0⟩]] (by decide) 1 1 (by decide)
  exact ⟨bb, h1, h7⟩

end ProcessBoosters
